import Mathlib

/-!
Verification of the progress-tracking / pair-selection core of
`daily_insight_timer.py` (a daily reel automation script).

The Python source is shallowly embedded:
* Python exceptions become an explicit `Except PyError` result;
* the persisted JSON history file becomes the `PersistedFile` /
  `Stored` types, and the filesystem / side effects of one run become
  an explicit `Effects` state (file contents plus an ordered trace of
  the observable side effects: history writes, low-stock alert,
  ffmpeg invocation, upload, e-mail);
* the seeded global `random` generator of CPython becomes a deterministic
  stream `mtDraw` of draws indexed by the seed and the draw counter
  (the concrete mixing function differs from the Mersenne Twister,
  but every property used here — determinism in the seed and the
  range bound of each draw — holds of both), and `random.shuffle`
  becomes the exact Fisher–Yates loop CPython runs on top of that
  stream;
* Python list subscription `l[i]` with an `int` subscript (including
  negative-index resolution and `IndexError`) becomes `pyGet`.
-/

namespace DailyInsightTimer

/-- Exceptions that the embedded fragment of the script can raise:
`RuntimeError` (empty pools, exhausted pool, failed subprocess),
`KeyError` (dict lookup on a missing key), `IndexError` (list
subscript out of range). -/
inductive PyError where
  | runtimeError (msg : String)
  | keyError (key : String)
  | indexError
deriving DecidableEq, Repr

/-- Resolution of a Python `int` subscript against a list of length
`len`: a negative subscript counts from the end. -/
def pyIdx (len : Nat) (i : Int) : Int :=
  if i < 0 then i + len else i

/-- Python list subscription `l[i]` for an `int` subscript `i`:
negative indices resolve from the end, anything out of
`[-len, len)` raises `IndexError`. -/
def pyGet {α : Type} (l : List α) (i : Int) : Except PyError α :=
  if h : 0 ≤ pyIdx l.length i ∧ (pyIdx l.length i).toNat < l.length then
    .ok (l.get ⟨(pyIdx l.length i).toNat, h.2⟩)
  else .error .indexError

/-- Models the CPython `random` module after `random.seed(seed)`:
the `k`-th raw draw of the generator.  Deterministic in
`(seed, k)`, which is the only property of the Mersenne Twister the
guarantees of the script rest on. -/
def mtDraw (seed : Int) (k : Nat) : Nat :=
  (seed.natAbs * 1103515245 + 2654435761 * (k + 1) + 12345) % 4294967296

/-- Models `random._randbelow(n)` as the `k`-th draw after seeding:
a value in `[0, n)` (for `n > 0`), deterministic in `(seed, k)`. -/
def randbelow (seed : Int) (k n : Nat) : Nat :=
  mtDraw seed k % n

/-- Models `random.randint(a, b)` driven by unseeded process entropy
`entropy`: a value in `[a, b]` (for `a ≤ b`). -/
def randint (a b : Int) (entropy : Nat) : Int :=
  a + ((entropy % (b - a + 1).toNat : Nat) : Int)

/-- One Fisher–Yates step: exchange positions `i` and `j` (a no-op
when either is out of range, which never happens in the shuffle). -/
def listSwap {α : Type} (l : List α) (i j : Nat) : List α :=
  if h : i < l.length ∧ j < l.length then
    (l.set i (l.get ⟨j, h.2⟩)).set j (l.get ⟨i, h.1⟩)
  else l

/-- The CPython `random.shuffle` loop
`for i in reversed(range(1, len(x))): j = _randbelow(i+1); swap i j`,
with the loop variable `i` as fuel and the draw counter recovered
from `n` and `i`. -/
def shuffleGo (seed : Int) (n : Nat) : Nat → List Nat → List Nat
  | 0, l => l
  | i + 1, l =>
      shuffleGo seed n i (listSwap l (i + 1) (randbelow seed (n - (i + 2)) (i + 2)))

/-- `random.seed(seed); random.shuffle(l)` for a list `l`. -/
def pyShuffle (seed : Int) (l : List Nat) : List Nat :=
  shuffleGo seed l.length (l.length - 1) l

/-! ### The shuffle produces a permutation -/

lemma set_perm_cons {α : Type} :
    ∀ (l : List α) (i : Nat), i < l.length →
      ∀ a : α, (l.set i a).Perm (a :: l.eraseIdx i)
  | _ :: _, 0, _, a => by simp
  | x :: t, i + 1, h, a => by
      have ih := set_perm_cons t i (by simpa using h) a
      simpa using ((ih.cons x).trans (List.Perm.swap a x _))

lemma set_get_self {α : Type} :
    ∀ (l : List α) (i : Nat) (h : i < l.length), l.set i (l.get ⟨i, h⟩) = l
  | _ :: _, 0, _ => rfl
  | x :: t, i + 1, h => by
      simpa using set_get_self t i (by simpa using h)

lemma perm_get_cons_eraseIdx {α : Type} (l : List α) (i : Nat) (h : i < l.length) :
    l.Perm (l.get ⟨i, h⟩ :: l.eraseIdx i) := by
  have hs := set_perm_cons l i h (l.get ⟨i, h⟩)
  rwa [set_get_self l i h] at hs

lemma perm_swap_cons {α : Type} (t : List α) (m : Nat) (h : m < t.length) (x : α) :
    ((t.get ⟨m, h⟩) :: t.set m x).Perm (x :: t) := by
  have h1 : (t.set m x).Perm (x :: t.eraseIdx m) := set_perm_cons t m h x
  have h2 : t.Perm (t.get ⟨m, h⟩ :: t.eraseIdx m) := perm_get_cons_eraseIdx t m h
  exact ((h1.cons _).trans (List.Perm.swap x _ _)).trans ((h2.cons x).symm)

lemma set_set_swap_perm {α : Type} :
    ∀ (l : List α) (i j : Nat) (hi : i < l.length) (hj : j < l.length),
      ((l.set i (l.get ⟨j, hj⟩)).set j (l.get ⟨i, hi⟩)).Perm l
  | _ :: _, 0, 0, _, _ => by simp
  | x :: t, 0, j + 1, _, hj => by
      have hj' : j < t.length := by simpa using hj
      simpa using perm_swap_cons t j hj' x
  | x :: t, i + 1, 0, hi, _ => by
      have hi' : i < t.length := by simpa using hi
      simpa using perm_swap_cons t i hi' x
  | x :: t, i + 1, j + 1, hi, hj => by
      have hi' : i < t.length := by simpa using hi
      have hj' : j < t.length := by simpa using hj
      simpa using (set_set_swap_perm t i j hi' hj').cons x

lemma listSwap_perm {α : Type} (l : List α) (i j : Nat) : (listSwap l i j).Perm l := by
  unfold listSwap
  split
  next h => exact set_set_swap_perm l i j h.1 h.2
  next => exact List.Perm.refl l

lemma shuffleGo_perm (seed : Int) (n : Nat) :
    ∀ (f : Nat) (l : List Nat), (shuffleGo seed n f l).Perm l
  | 0, l => List.Perm.refl l
  | f + 1, l =>
      (shuffleGo_perm seed n f _).trans (listSwap_perm l (f + 1) _)

lemma pyShuffle_perm (seed : Int) (l : List Nat) : (pyShuffle seed l).Perm l :=
  shuffleGo_perm seed l.length (l.length - 1) l

lemma pyShuffle_length (seed : Int) (l : List Nat) :
    (pyShuffle seed l).length = l.length :=
  (pyShuffle_perm seed l).length_eq

lemma pyShuffle_range_mem {n x : Nat} {seed : Int}
    (h : x ∈ pyShuffle seed (List.range n)) : x < n := by
  have hm := (pyShuffle_perm seed (List.range n)).mem_iff.mp h
  simpa using hm

/-! ### `pyGet` evaluation lemmas -/

lemma pyGet_ok_of_nonneg {α : Type} (l : List α) (i : Int) (h0 : 0 ≤ i)
    (h1 : i.toNat < l.length) :
    pyGet l i = .ok (l.get ⟨i.toNat, h1⟩) := by
  have hidx : pyIdx l.length i = i := if_neg (not_lt.mpr h0)
  unfold pyGet
  rw [dif_pos]
  · simp only [hidx]
  · exact ⟨by rw [hidx]; exact h0, by rw [hidx]; exact h1⟩

lemma pyGet_ok_of_neg {α : Type} (l : List α) (i : Int)
    (h0 : -(l.length : Int) ≤ i) (h1 : i < 0)
    (h2 : (i + l.length).toNat < l.length) :
    pyGet l i = .ok (l.get ⟨(i + l.length).toNat, h2⟩) := by
  have hidx : pyIdx l.length i = i + l.length := if_pos h1
  unfold pyGet
  rw [dif_pos]
  · simp only [hidx]
  · exact ⟨by rw [hidx]; omega, by rw [hidx]; exact h2⟩

lemma pyGet_err_low {α : Type} (l : List α) (i : Int)
    (h : i < -(l.length : Int)) :
    pyGet l i = .error .indexError := by
  have h1 : i < 0 := by
    have : (0 : Int) ≤ (l.length : Int) := Int.ofNat_nonneg _
    omega
  have hidx : pyIdx l.length i = i + l.length := if_pos h1
  unfold pyGet
  rw [dif_neg]
  rw [hidx]
  intro hcon
  omega

lemma pyGet_mem {α : Type} {l : List α} {i : Int} {a : α}
    (h : pyGet l i = .ok a) : a ∈ l := by
  unfold pyGet at h
  split at h
  next hb =>
    cases h
    exact List.get_mem l ((pyIdx l.length i).toNat) hb.2
  · cases h

/-! ### The persisted history record and the Progress Store -/

/-- The JSON object held by `.history.json`, as the script reads it:
a dict whose `"index"` / `"shuffle_seed"` keys may each be absent
(`none`), and whose `"shuffle_seed"` value may be JSON `null`
(`some none`) or an integer (`some (some s)`). -/
structure Stored where
  index : Option Int
  shuffle_seed : Option (Option Int)
deriving DecidableEq, Repr

/-- The on-disk state of `.history.json`: missing, present but not
decodable as JSON, or holding a decoded record. -/
inductive PersistedFile where
  | absent
  | corrupt
  | valid (s : Stored)
deriving DecidableEq, Repr

/-- `{"index": 0, "shuffle_seed": None}`. -/
def defaultHistory : Stored := ⟨some 0, some none⟩

/-- `load_history()`: the default record when the file is missing, the
default record when any exception occurs while reading/decoding it
(the bare `except Exception`), otherwise the decoded record.  Total —
it never propagates an error. -/
def load_history : PersistedFile → Stored
  | .absent => defaultHistory
  | .corrupt => defaultHistory
  | .valid s => s

/-- The observable side effects of one run, in program order. -/
inductive Event where
  | saveHistory (h : Stored)
  | resetEvent
  | lowStockAlert (remaining : Int)
  | alertFailed
  | ffmpegRun (image audio : String)
  | uploadR2 (path : String)
  | emailSent
deriving DecidableEq, Repr

/-- The mutable environment of a run: the history file plus the
ordered trace of side effects performed so far. -/
structure Effects where
  file : PersistedFile
  trace : List Event
deriving DecidableEq, Repr

/-- `save_history(history)`: full overwrite of the persisted file. -/
def save_history (h : Stored) (st : Effects) : Effects :=
  ⟨.valid h, st.trace ++ [.saveHistory h]⟩

/-- `reset_progress()`: unconditionally rewrite the file to the
default record. -/
def reset_progress (st : Effects) : Effects :=
  ⟨.valid defaultHistory, st.trace ++ [.resetEvent]⟩

/-! ### `create_reel` -/

def LOW_STOCK_THRESHOLD : Int := 3

def missingMsg : String := "❌ Images or audio missing"

def allFinishedMsg : String := "🚫 All reels finished.\nAdd more images/audio to continue."

/-- `os.path.basename` on the forward-slash paths the script builds. -/
def basename (p : String) : String := (p.splitOn "/").getLastD p

/-- The trace left by the low-stock block: if `remaining` is at or
below the threshold the alert is attempted (and a failure is caught,
leaving only a logged warning), otherwise nothing. -/
def alertEvents (remaining : Int) (notifyFails : Bool) : List Event :=
  if remaining ≤ LOW_STOCK_THRESHOLD then
    .lowStockAlert remaining :: (if notifyFails then [Event.alertFailed] else [])
  else []

/-- What a successful `create_reel` hands to the rest of `main`:
the return tuple `(output_path, basename(image), basename(audio),
day_number)`, plus — exposed by the model for the specification —
the internal pool position `pair_index` the selection used. -/
structure SelResult where
  output_path : String
  image_name : String
  audio_name : String
  day_number : Int
  pair_index : Nat
deriving DecidableEq, Repr

/-- The tail of `create_reel` from `random.seed(...)` (line 208) on:
`seed` is the value of `history["shuffle_seed"]` at that point and
`history` the in-memory dict.  Covers the shuffle, the
`history["index"]` lookup, the exhaustion guard, the three list
subscripts, the increment-and-save, the low-stock block and the
ffmpeg invocation.  `notifyFails` / `ffmpegFails` model whether the
two external collaborators throw. -/
def afterSeed (images audios : List String) (today : String)
    (notifyFails ffmpegFails : Bool) (seed : Int) (history : Stored)
    (st : Effects) : Except PyError SelResult × Effects :=
  let total_pairs := min images.length audios.length
  let shuffled_indices := pyShuffle seed (List.range total_pairs)
  match history.index with
  | none => (.error (.keyError "index"), st)
  | some i =>
    if (total_pairs : Int) ≤ i then
      (.error (.runtimeError allFinishedMsg), st)
    else
      match pyGet shuffled_indices i with
      | .error e => (.error e, st)
      | .ok pair_index =>
        match pyGet images (pair_index : Int) with
        | .error e => (.error e, st)
        | .ok image =>
          match pyGet audios (pair_index : Int) with
          | .error e => (.error e, st)
          | .ok audio =>
            let history2 : Stored := { history with index := some (i + 1) }
            let st2 := save_history history2 st
            let remaining : Int := (total_pairs : Int) - (i + 1)
            let st3 : Effects := ⟨st2.file, st2.trace ++ alertEvents remaining notifyFails⟩
            let st4 : Effects := ⟨st3.file, st3.trace ++ [.ffmpegRun image audio]⟩
            if ffmpegFails then
              (.error (.runtimeError "CalledProcessError"), st4)
            else
              (.ok { output_path := "output/reel_" ++ today ++ ".mp4",
                     image_name := basename image,
                     audio_name := basename audio,
                     day_number := i + 1,
                     pair_index := pair_index }, st4)

/-- `create_reel()`.  The two directory listings arrive as the already
sorted, extension-filtered path lists `images` / `audios`; `entropy`
is the unseeded process randomness feeding `random.randint`;
`notifyFails` / `ffmpegFails` say whether the alert e-mail and the
ffmpeg subprocess throw. -/
def create_reel (images audios : List String) (entropy : Nat) (today : String)
    (notifyFails ffmpegFails : Bool) (st : Effects) :
    Except PyError SelResult × Effects :=
  if images.isEmpty || audios.isEmpty then
    (.error (.runtimeError missingMsg), st)
  else
    let history := load_history st.file
    match history.shuffle_seed with
    | none => (.error (.keyError "shuffle_seed"), st)
    | some none =>
        let s := randint 1 999999 entropy
        let h1 : Stored := { history with shuffle_seed := some (some s) }
        afterSeed images audios today notifyFails ffmpegFails s h1 (save_history h1 st)
    | some (some s) =>
        afterSeed images audios today notifyFails ffmpegFails s history st

/-- `main()` up to the e-mail step: optional reset, then
`create_reel`, then upload and notification e-mail (caption
generation and cleanup have no history or trace footprint in the
model). -/
def main_model (resetFlag : Bool) (images audios : List String) (entropy : Nat)
    (today : String) (notifyFails ffmpegFails : Bool) (st : Effects) :
    Except PyError SelResult × Effects :=
  let st0 := if resetFlag then reset_progress st else st
  match create_reel images audios entropy today notifyFails ffmpegFails st0 with
  | (.error e, st1) => (.error e, st1)
  | (.ok r, st1) =>
      (.ok r, ⟨st1.file, st1.trace ++ [.uploadR2 r.output_path, .emailSent]⟩)

/-- `k` consecutive runs of the selection step (collaborators
succeeding), collecting the `pair_index` of each successful
selection and stopping at the first failure. -/
def runSelections (images audios : List String) (entropy : Nat) (today : String) :
    Nat → Effects → List Nat × Effects
  | 0, st => ([], st)
  | k + 1, st =>
    match create_reel images audios entropy today false false st with
    | (Except.ok r, st1) =>
        let rest := runSelections images audios entropy today k st1
        (r.pair_index :: rest.1, rest.2)
    | (Except.error _, st1) => ([], st1)

/-! ### Evaluation lemmas for `create_reel` -/

lemma randint_low (entropy : Nat) : 1 ≤ randint 1 999999 entropy := by
  unfold randint
  omega

lemma randint_high (entropy : Nat) : randint 1 999999 entropy ≤ 999999 := by
  unfold randint
  have h : entropy % (999999 - 1 + 1 : Int).toNat < 999999 := Nat.mod_lt _ (by norm_num)
  omega

/-- Full evaluation of a successful selection from a seeded record:
from `{index: i, shuffle_seed: s}` with `i < N` and the shuffle
lookup returning `pair_index = p`, `create_reel` returns day number
`i + 1` and pool position `p`, persists `{index: i+1, shuffle_seed: s}`,
and appends exactly the save, the (possibly failing) low-stock
attempt and the ffmpeg invocation to the trace. -/
lemma create_reel_success (images audios : List String) (entropy : Nat) (today : String)
    (notifyFails : Bool) (s i : Int) (p : Nat) (tr : List Event)
    (hI : images ≠ []) (hA : audios ≠ [])
    (hiN : i < (min images.length audios.length : Int))
    (hp : pyGet (pyShuffle s (List.range (min images.length audios.length))) i = .ok p) :
    create_reel images audios entropy today notifyFails false
        ⟨.valid ⟨some i, some (some s)⟩, tr⟩ =
      (.ok { output_path := "output/reel_" ++ today ++ ".mp4",
             image_name := basename (images.getD p ""),
             audio_name := basename (audios.getD p ""),
             day_number := i + 1,
             pair_index := p },
       ⟨.valid ⟨some (i + 1), some (some s)⟩,
        tr ++ Event.saveHistory ⟨some (i + 1), some (some s)⟩ ::
          (alertEvents ((min images.length audios.length : Int) - (i + 1)) notifyFails ++
           [Event.ffmpegRun (images.getD p "") (audios.getD p "")])⟩) := by
  have hIe : images.isEmpty = false := by
    cases images with
    | nil => exact absurd rfl hI
    | cons a t => rfl
  have hAe : audios.isEmpty = false := by
    cases audios with
    | nil => exact absurd rfl hA
    | cons a t => rfl
  have hpN : p < min images.length audios.length :=
    pyShuffle_range_mem (pyGet_mem hp)
  have hpI : p < images.length := lt_of_lt_of_le hpN (Nat.min_le_left _ _)
  have hpA : p < audios.length := lt_of_lt_of_le hpN (Nat.min_le_right _ _)
  have hgi : pyGet images ((p : Nat) : Int) = .ok (images.getD p "") := by
    rw [pyGet_ok_of_nonneg images ((p : Nat) : Int) (Int.ofNat_nonneg p)
      (by simpa using hpI)]
    congr 1
    rw [List.getD_eq_getElem _ _ hpI]
    simp
  have hga : pyGet audios ((p : Nat) : Int) = .ok (audios.getD p "") := by
    rw [pyGet_ok_of_nonneg audios ((p : Nat) : Int) (Int.ofNat_nonneg p)
      (by simpa using hpA)]
    congr 1
    rw [List.getD_eq_getElem _ _ hpA]
    simp
  unfold create_reel
  simp only [hIe, hAe, Bool.or_self, Bool.false_eq_true, if_false, load_history]
  unfold afterSeed
  simp only [hp, hgi, hga, if_neg (not_le.mpr hiN), save_history]
  simp [List.append_assoc]
  exact lt_min_iff.mp (by exact_mod_cast hiN)

/-- Any exit of `afterSeed` leaves the history file either untouched
or overwritten with the incremented record (same seed field). -/
lemma afterSeed_file (images audios : List String) (today : String)
    (notifyFails ffmpegFails : Bool) (seed : Int) (history : Stored) (st : Effects) :
    (afterSeed images audios today notifyFails ffmpegFails seed history st).2.file = st.file ∨
    ∃ i : Int, history.index = some i ∧
      (afterSeed images audios today notifyFails ffmpegFails seed history st).2.file =
        .valid ⟨some (i + 1), history.shuffle_seed⟩ := by
  simp only [afterSeed]
  split
  next => left; rfl
  next i heq =>
    split
    next => left; rfl
    next =>
      split
      next => left; rfl
      next p hp =>
        split
        next => left; rfl
        next img hgi =>
          split
          next => left; rfl
          next aud hga =>
            split
            · right; exact ⟨i, heq, rfl⟩
            · right; exact ⟨i, heq, rfl⟩

/-- Any exit of `afterSeed` only appends to the trace. -/
lemma afterSeed_trace (images audios : List String) (today : String)
    (notifyFails ffmpegFails : Bool) (seed : Int) (history : Stored) (st : Effects) :
    ∃ extra, (afterSeed images audios today notifyFails ffmpegFails seed history st).2.trace =
      st.trace ++ extra := by
  simp only [afterSeed]
  split
  next => exact ⟨[], by simp⟩
  next i heq =>
    split
    next => exact ⟨[], by simp⟩
    next =>
      split
      next => exact ⟨[], by simp⟩
      next p hp =>
        split
        next => exact ⟨[], by simp⟩
        next img hgi =>
          split
          next => exact ⟨[], by simp⟩
          next aud hga =>
            split <;>
            · refine ⟨Event.saveHistory ⟨some (i + 1), history.shuffle_seed⟩ ::
                (alertEvents (((images.length ⊓ audios.length : Nat) : Int) - (i + 1)) notifyFails ++
                 [Event.ffmpegRun img aud]), ?_⟩
              simp [save_history, List.append_assoc]

/-- The two fatal `RuntimeError` messages of the selection path are
not the encode-failure message. -/
lemma missingMsg_ne : missingMsg ≠ "CalledProcessError" := by decide

lemma allFinishedMsg_ne : allFinishedMsg ≠ "CalledProcessError" := by decide

/-- Inversion: an `afterSeed` run whose selection completed — it
either returned the pair (`.ok`) or failed only afterwards, in the
encode subprocess (`CalledProcessError`) — reached the
increment-and-save: the incremented record was persisted, and the
only events after that save are the low-stock attempt and the
ffmpeg attempt.  Every other exit of `afterSeed` returns a different
error value, so the disjunction exactly characterises a completed
selection. -/
lemma afterSeed_selection_completed {images audios : List String} {today : String}
    {nf ff : Bool} {seed : Int} {history : Stored} {st : Effects}
    {res : Except PyError SelResult} {st' : Effects}
    (h : afterSeed images audios today nf ff seed history st = (res, st'))
    (hres : res = .error (.runtimeError "CalledProcessError") ∨ ∃ r, res = .ok r) :
    ∃ (i : Int) (img aud : String),
      history.index = some i ∧
      (∀ r, res = .ok r → r.day_number = i + 1) ∧
      st'.file = .valid ⟨some (i + 1), history.shuffle_seed⟩ ∧
      st'.trace = st.trace ++ Event.saveHistory ⟨some (i + 1), history.shuffle_seed⟩ ::
        (alertEvents (((images.length ⊓ audios.length : Nat) : Int) - (i + 1)) nf ++
         [Event.ffmpegRun img aud]) := by
  simp only [afterSeed] at h
  split at h
  next =>
    rw [Prod.ext_iff] at h
    obtain ⟨h1, h2⟩ := h
    simp only at h1
    subst h1
    rcases hres with hL | ⟨r, hr⟩
    · simp only [Except.error.injEq] at hL
      exact PyError.noConfusion hL
    · simp at hr
  next i heq =>
    split at h
    next =>
      rw [Prod.ext_iff] at h
      obtain ⟨h1, h2⟩ := h
      simp only at h1
      subst h1
      rcases hres with hL | ⟨r, hr⟩
      · simp only [Except.error.injEq, PyError.runtimeError.injEq] at hL
        exact absurd hL allFinishedMsg_ne
      · simp at hr
    next =>
      split at h
      next e herr =>
        rw [Prod.ext_iff] at h
        obtain ⟨h1, h2⟩ := h
        simp only at h1
        subst h1
        rcases hres with hL | ⟨r, hr⟩
        · simp only [Except.error.injEq] at hL
          subst hL
          unfold pyGet at herr
          split at herr
          · simp at herr
          · simp at herr
        · simp at hr
      next p hp =>
        split at h
        next e herr =>
          rw [Prod.ext_iff] at h
          obtain ⟨h1, h2⟩ := h
          simp only at h1
          subst h1
          rcases hres with hL | ⟨r, hr⟩
          · simp only [Except.error.injEq] at hL
            subst hL
            unfold pyGet at herr
            split at herr
            · simp at herr
            · simp at herr
          · simp at hr
        next img hgi =>
          split at h
          next e herr =>
            rw [Prod.ext_iff] at h
            obtain ⟨h1, h2⟩ := h
            simp only at h1
            subst h1
            rcases hres with hL | ⟨r, hr⟩
            · simp only [Except.error.injEq] at hL
              subst hL
              unfold pyGet at herr
              split at herr
              · simp at herr
              · simp at herr
            · simp at hr
          next aud hga =>
            split at h
            next =>
              rw [Prod.ext_iff] at h
              obtain ⟨h1, h2⟩ := h
              simp only at h1 h2
              subst h1
              refine ⟨i, img, aud, heq, ?_, ?_, ?_⟩
              · intro r hr
                simp at hr
              · rw [← h2]
                rfl
              · rw [← h2]
                simp [save_history, List.append_assoc]
            next =>
              rw [Prod.ext_iff] at h
              obtain ⟨h1, h2⟩ := h
              simp only at h1 h2
              subst h1
              refine ⟨i, img, aud, heq, ?_, ?_, ?_⟩
              · intro r hr
                simp only [Except.ok.injEq] at hr
                subst hr
                rfl
              · rw [← h2]
                rfl
              · rw [← h2]
                simp [save_history, List.append_assoc]

/-- Inversion: a `create_reel` run whose selection completed (result
`.ok`, or the encode-failure `CalledProcessError` raised after the
selection) persisted the incremented record over the loaded index
`i`, and the only events that can precede that save in the new trace
are history saves of the un-incremented index (the one-time seed
assignment). -/
lemma create_reel_selection_completed {images audios : List String} {entropy : Nat}
    {today : String} {nf ff : Bool} {st : Effects}
    {res : Except PyError SelResult} {st' : Effects}
    (h : create_reel images audios entropy today nf ff st = (res, st'))
    (hres : res = .error (.runtimeError "CalledProcessError") ∨ ∃ r, res = .ok r) :
    ∃ (i : Int) (sd : Option (Option Int)) (pre : List Event) (img aud : String),
      (load_history st.file).index = some i ∧
      (∀ e ∈ pre, ∃ hr : Stored, e = .saveHistory hr ∧ hr.index = some i) ∧
      (∀ r, res = .ok r → r.day_number = i + 1) ∧
      st'.file = .valid ⟨some (i + 1), sd⟩ ∧
      st'.trace = (st.trace ++ pre) ++ Event.saveHistory ⟨some (i + 1), sd⟩ ::
        (alertEvents (((images.length ⊓ audios.length : Nat) : Int) - (i + 1)) nf ++
         [Event.ffmpegRun img aud]) := by
  simp only [create_reel] at h
  split at h
  next =>
    rw [Prod.ext_iff] at h
    obtain ⟨h1, h2⟩ := h
    simp only at h1
    subst h1
    rcases hres with hL | ⟨r, hr⟩
    · simp only [Except.error.injEq, PyError.runtimeError.injEq] at hL
      exact absurd hL missingMsg_ne
    · simp at hr
  next =>
    split at h
    next =>
      rw [Prod.ext_iff] at h
      obtain ⟨h1, h2⟩ := h
      simp only at h1
      subst h1
      rcases hres with hL | ⟨r, hr⟩
      · simp only [Except.error.injEq] at hL
        exact PyError.noConfusion hL
      · simp at hr
    next hseed =>
      obtain ⟨i, img, aud, heq, hday, hfile, htrace⟩ :=
        afterSeed_selection_completed h hres
      refine ⟨i, some (some (randint 1 999999 entropy)), [Event.saveHistory
        ⟨(load_history st.file).index, some (some (randint 1 999999 entropy))⟩],
        img, aud, by simpa using heq, ?_, hday, by simpa using hfile, ?_⟩
      · intro e he
        simp only [List.mem_singleton] at he
        subst he
        refine ⟨_, rfl, ?_⟩
        simpa using heq
      · simpa [save_history, List.append_assoc] using htrace
    next s hseed =>
      obtain ⟨i, img, aud, heq, hday, hfile, htrace⟩ :=
        afterSeed_selection_completed h hres
      refine ⟨i, some (some s), [], img, aud, heq, ?_, hday, ?_, ?_⟩
      · intro e he
        simp at he
      · rw [hfile, hseed]
      · rw [htrace, hseed]
        simp [List.append_assoc]

/-- Once the persisted record carries an integer seed, any
`create_reel` call — whatever its outcome — leaves that seed in the
persisted record. -/
lemma create_reel_seed_preserved (images audios : List String) (entropy : Nat)
    (today : String) (nf ff : Bool) (st : Effects) (s : Int)
    (hs : (load_history st.file).shuffle_seed = some (some s)) :
    (load_history (create_reel images audios entropy today nf ff st).2.file).shuffle_seed =
      some (some s) := by
  simp only [create_reel, hs]
  split
  next => exact hs
  next =>
    rcases afterSeed_file images audios today nf ff s (load_history st.file) st with
      hcase | ⟨i, hidx, hcase⟩
    · rw [hcase]
      exact hs
    · rw [hcase]
      simpa [load_history] using hs

/-- A `create_reel` call on a record whose seed is JSON `null`
assigns `randint(1, 999999)` and persists it as its very first side
effect; the persisted record still carries that seed when the call
ends. -/
lemma create_reel_seed_assign (images audios : List String) (entropy : Nat)
    (today : String) (nf ff : Bool) (st : Effects)
    (hI : images ≠ []) (hA : audios ≠ [])
    (hs : (load_history st.file).shuffle_seed = some none) :
    ∃ rest, (create_reel images audios entropy today nf ff st).2.trace =
        st.trace ++ Event.saveHistory
          ⟨(load_history st.file).index, some (some (randint 1 999999 entropy))⟩ :: rest ∧
      (load_history (create_reel images audios entropy today nf ff st).2.file).shuffle_seed =
        some (some (randint 1 999999 entropy)) := by
  have hIe : images.isEmpty = false := by
    cases images with
    | nil => exact absurd rfl hI
    | cons a t => rfl
  have hAe : audios.isEmpty = false := by
    cases audios with
    | nil => exact absurd rfl hA
    | cons a t => rfl
  simp only [create_reel, hs, hIe, hAe, Bool.or_self, Bool.false_eq_true, if_false]
  obtain ⟨extra, hextra⟩ := afterSeed_trace images audios today nf ff
    (randint 1 999999 entropy)
    ⟨(load_history st.file).index, some (some (randint 1 999999 entropy))⟩
    (save_history ⟨(load_history st.file).index, some (some (randint 1 999999 entropy))⟩ st)
  refine ⟨extra, ?_, ?_⟩
  · rw [hextra]
    simp [save_history, List.append_assoc]
  · rcases afterSeed_file images audios today nf ff (randint 1 999999 entropy)
      ⟨(load_history st.file).index, some (some (randint 1 999999 entropy))⟩
      (save_history ⟨(load_history st.file).index, some (some (randint 1 999999 entropy))⟩ st) with
      hcase | ⟨i, hidx, hcase⟩
    · rw [hcase]
      simp [save_history, load_history]
    · rw [hcase]
      simp [load_history]

/-- Evaluation of an exhausted selection (`index >= N`): the
exhaustion `RuntimeError` is raised, the persisted index is
untouched — and the whole state is untouched exactly when the seed
was already an integer (an unset seed has already been assigned and
saved by the time the guard fires). -/
lemma create_reel_exhausted (images audios : List String) (entropy : Nat)
    (today : String) (nf ff : Bool) (st : Effects) (i : Int) (sf : Option Int)
    (hI : images ≠ []) (hA : audios ≠ [])
    (hload : load_history st.file = ⟨some i, some sf⟩)
    (hex : ((images.length ⊓ audios.length : Nat) : Int) ≤ i) :
    (create_reel images audios entropy today nf ff st).1 =
      .error (.runtimeError allFinishedMsg) ∧
    (load_history (create_reel images audios entropy today nf ff st).2.file).index =
      some i ∧
    (∀ s : Int, sf = some s → (create_reel images audios entropy today nf ff st).2 = st) := by
  have hIe : images.isEmpty = false := by
    cases images with
    | nil => exact absurd rfl hI
    | cons a t => rfl
  have hAe : audios.isEmpty = false := by
    cases audios with
    | nil => exact absurd rfl hA
    | cons a t => rfl
  cases sf with
  | some s =>
      simp only [create_reel, hload, hIe, hAe, Bool.or_self, Bool.false_eq_true, if_false,
        afterSeed, if_pos hex]
      simp
  | none =>
      simp only [create_reel, hload, hIe, hAe, Bool.or_self, Bool.false_eq_true, if_false,
        afterSeed, if_pos hex]
      simp [load_history, save_history]

/-- Evaluation of a selection whose persisted index is below `-N`:
the first list subscript raises `IndexError` and the state is
untouched. -/
lemma create_reel_idxerr (images audios : List String) (entropy : Nat)
    (today : String) (nf ff : Bool) (s i : Int) (tr : List Event)
    (hI : images ≠ []) (hA : audios ≠ [])
    (hlow : i < -((images.length ⊓ audios.length : Nat) : Int)) :
    create_reel images audios entropy today nf ff
        ⟨.valid ⟨some i, some (some s)⟩, tr⟩ =
      (.error .indexError, ⟨.valid ⟨some i, some (some s)⟩, tr⟩) := by
  have hIe : images.isEmpty = false := by
    cases images with
    | nil => exact absurd rfl hI
    | cons a t => rfl
  have hAe : audios.isEmpty = false := by
    cases audios with
    | nil => exact absurd rfl hA
    | cons a t => rfl
  have hN : (0 : Int) ≤ ((images.length ⊓ audios.length : Nat) : Int) :=
    Int.ofNat_nonneg _
  have hguard : ¬ ((images.length ⊓ audios.length : Nat) : Int) ≤ i := by omega
  have hlen : ((pyShuffle s (List.range (images.length ⊓ audios.length))).length : Int) =
      ((images.length ⊓ audios.length : Nat) : Int) := by
    rw [pyShuffle_length]
    simp
  have herr : pyGet (pyShuffle s (List.range (images.length ⊓ audios.length))) i =
      .error .indexError := by
    apply pyGet_err_low
    omega
  simp only [create_reel, load_history, hIe, hAe, Bool.or_self, Bool.false_eq_true, if_false,
    afterSeed, if_neg hguard, herr]

/-- Starting seeded at index `j`, `k` consecutive runs (with
`j + k ≤ N`) all succeed and return exactly the shuffle positions
`j, j+1, ..., j+k-1`, in order. -/
lemma runSelections_spec (images audios : List String) (entropy : Nat) (today : String)
    (s : Int) :
    ∀ (k j : Nat) (tr : List Event),
      j + k ≤ images.length ⊓ audios.length →
      images ≠ [] → audios ≠ [] →
      (runSelections images audios entropy today k
          ⟨.valid ⟨some (j : Int), some (some s)⟩, tr⟩).1 =
        ((pyShuffle s (List.range (images.length ⊓ audios.length))).drop j).take k
  | 0, j, tr, hjk, hI, hA => by
      simp [runSelections]
  | k + 1, j, tr, hjk, hI, hA => by
      have hjN : j < images.length ⊓ audios.length := by omega
      have hlen : j < (pyShuffle s (List.range (images.length ⊓ audios.length))).length := by
        rw [pyShuffle_length]
        simpa using hjN
      have hp : pyGet (pyShuffle s (List.range (images.length ⊓ audios.length))) ((j : Nat) : Int) =
          .ok ((pyShuffle s (List.range (images.length ⊓ audios.length))).get ⟨j, hlen⟩) := by
        rw [pyGet_ok_of_nonneg _ _ (Int.ofNat_nonneg j) (by simpa using hlen)]
        congr 1
      have hcast : ((j : Nat) : Int) < (images.length : Int) ⊓ (audios.length : Int) := by
        exact_mod_cast hjN
      have hstep := create_reel_success images audios entropy today false s ((j : Nat) : Int)
        ((pyShuffle s (List.range (images.length ⊓ audios.length))).get ⟨j, hlen⟩) tr hI hA
        hcast hp
      simp only [runSelections, hstep]
      have hconv : ((j : Nat) : Int) + 1 = (((j + 1 : Nat) : Nat) : Int) := by push_cast; ring
      rw [hconv]
      rw [runSelections_spec images audios entropy today s k (j + 1) _ (by omega) hI hA]
      rw [List.drop_eq_getElem_cons hlen, List.take_succ_cons]
      simp only [List.get_eq_getElem]

/-- The downstream, possibly-failing external side effects of a run:
encode (ffmpeg), upload, and the two notification e-mails.  History
saves and the reset write are internal writes of the Progress Store, not
external effects. -/
def isDownstream : Event → Bool
  | .ffmpegRun _ _ => true
  | .uploadR2 _ => true
  | .emailSent => true
  | .lowStockAlert _ => true
  | _ => false

lemma main_model_file (images audios : List String) (entropy : Nat) (today : String)
    (nf ff : Bool) (st : Effects) :
    (main_model false images audios entropy today nf ff st).2.file =
      (create_reel images audios entropy today nf ff st).2.file := by
  simp only [main_model, Bool.false_eq_true, if_false]
  rcases h : create_reel images audios entropy today nf ff st with ⟨res, st1⟩
  cases res <;> rfl

/-! ### The claims -/

/-- C1: for every `N > 0` and fixed seed, the shuffled index list is
a permutation of `range N` (a bijection on `{0,...,N-1}`), it does
not depend on anything but the seed and `N` (determinism across
recomputations), and the `pair_index` values of `N` consecutive
successful selections from `index = 0` are exactly that permutation:
they cover `{0,...,N-1}` exactly once each, with no repeats. -/
theorem c1_shuffle_bijection_determinism_coverage
    (N : Nat) (hN : 0 < N) (s : Int) (images audios : List String)
    (hI : images.length = N) (hA : audios.length = N)
    (e1 e2 : Nat) (t1 t2 : String) (tr1 tr2 : List Event) :
    (pyShuffle s (List.range N)).Perm (List.range N) ∧
    (runSelections images audios e1 t1 N ⟨.valid ⟨some 0, some (some s)⟩, tr1⟩).1 =
      (runSelections images audios e2 t2 N ⟨.valid ⟨some 0, some (some s)⟩, tr2⟩).1 ∧
    (runSelections images audios e1 t1 N ⟨.valid ⟨some 0, some (some s)⟩, tr1⟩).1.Perm
      (List.range N) ∧
    (runSelections images audios e1 t1 N ⟨.valid ⟨some 0, some (some s)⟩, tr1⟩).1.Nodup ∧
    (∀ m : Nat,
      m ∈ (runSelections images audios e1 t1 N ⟨.valid ⟨some 0, some (some s)⟩, tr1⟩).1 ↔
      m < N) := by
  have hIe : images ≠ [] := by
    intro hcon
    rw [hcon] at hI
    simp at hI
    omega
  have hAe : audios ≠ [] := by
    intro hcon
    rw [hcon] at hA
    simp at hA
    omega
  have hmin : images.length ⊓ audios.length = N := by
    rw [hI, hA, min_self]
  have hall : ∀ (e : Nat) (t : String) (tr : List Event),
      (runSelections images audios e t N ⟨.valid ⟨some 0, some (some s)⟩, tr⟩).1 =
        pyShuffle s (List.range N) := by
    intro e t tr
    have h0 : ((0 : Nat) : Int) = (0 : Int) := by norm_cast
    have := runSelections_spec images audios e t s N 0 tr (by omega) hIe hAe
    rw [h0] at this
    rw [this, hmin, List.drop_zero, List.take_of_length_le]
    rw [pyShuffle_length, List.length_range]
  have hperm : (pyShuffle s (List.range N)).Perm (List.range N) := pyShuffle_perm s _
  refine ⟨hperm, ?_, ?_, ?_, ?_⟩
  · rw [hall e1 t1 tr1, hall e2 t2 tr2]
  · rw [hall e1 t1 tr1]
    exact hperm
  · rw [hall e1 t1 tr1]
    exact hperm.nodup_iff.mpr (List.nodup_range N)
  · intro m
    rw [hall e1 t1 tr1, hperm.mem_iff, List.mem_range]

/-- C1 witness at `N = 2`, seed `7`. -/
theorem c1_witness :
    0 < 2 ∧ (["a", "b"] : List String).length = 2 ∧
      (["x", "y"] : List String).length = 2 ∧
    ((pyShuffle 7 (List.range 2)).Perm (List.range 2) ∧
     (runSelections ["a", "b"] ["x", "y"] 0 "d" 2
         ⟨.valid ⟨some 0, some (some 7)⟩, []⟩).1 =
       (runSelections ["a", "b"] ["x", "y"] 1 "e" 2
         ⟨.valid ⟨some 0, some (some 7)⟩, []⟩).1 ∧
     (runSelections ["a", "b"] ["x", "y"] 0 "d" 2
         ⟨.valid ⟨some 0, some (some 7)⟩, []⟩).1.Perm (List.range 2) ∧
     (runSelections ["a", "b"] ["x", "y"] 0 "d" 2
         ⟨.valid ⟨some 0, some (some 7)⟩, []⟩).1.Nodup ∧
     (∀ m : Nat,
       m ∈ (runSelections ["a", "b"] ["x", "y"] 0 "d" 2
         ⟨.valid ⟨some 0, some (some 7)⟩, []⟩).1 ↔ m < 2)) :=
  ⟨by decide, by decide, by decide,
   c1_shuffle_bijection_determinism_coverage 2 (by decide) 7 ["a", "b"] ["x", "y"]
     (by decide) (by decide) 0 1 "d" "e" [] []⟩

/-- Reduction of `main_model` when the inner `create_reel` fails. -/
lemma main_model_eq_error (resetFlag : Bool) (images audios : List String)
    (entropy : Nat) (today : String) (nf ff : Bool) (st st1 : Effects) (e : PyError)
    (hcr : create_reel images audios entropy today nf ff
      (if resetFlag then reset_progress st else st) = (.error e, st1)) :
    main_model resetFlag images audios entropy today nf ff st = (.error e, st1) := by
  simp only [main_model, hcr]

/-- Reduction of `main_model` when the inner `create_reel` succeeds. -/
lemma main_model_eq_ok (resetFlag : Bool) (images audios : List String)
    (entropy : Nat) (today : String) (nf ff : Bool) (st st1 : Effects) (r : SelResult)
    (hcr : create_reel images audios entropy today nf ff
      (if resetFlag then reset_progress st else st) = (.ok r, st1)) :
    main_model resetFlag images audios entropy today nf ff st =
      (.ok r, ⟨st1.file, st1.trace ++ [.uploadR2 r.output_path, .emailSent]⟩) := by
  simp only [main_model, hcr]

/-- C2: for every run whose selection completes — the run returns the
pair, or fails only downstream of it, in the encode subprocess
(`CalledProcessError`); the notifier may throw in either case — the
new trace splits as `pre ++ save({index: i+1, ...}) :: post`, where
`i` is the persisted index the selection loaded and nothing in `pre`
is a downstream external effect (encode / upload / notify): the
durable advance of the index precedes every downstream side-effect
attempt, and on a fully successful run `day_number = i + 1`. -/
theorem c2_increment_persisted_before_downstream (resetFlag : Bool)
    (images audios : List String) (entropy : Nat) (today : String)
    (notifyFails ffmpegFails : Bool) (st : Effects)
    (hsel : (main_model resetFlag images audios entropy today notifyFails ffmpegFails st).1 =
        .error (.runtimeError "CalledProcessError") ∨
      ∃ r, (main_model resetFlag images audios entropy today notifyFails ffmpegFails st).1 =
        .ok r) :
    ∃ (i : Int) (sd : Option (Option Int)) (pre post : List Event),
      (load_history (if resetFlag then reset_progress st else st).file).index = some i ∧
      (main_model resetFlag images audios entropy today notifyFails ffmpegFails st).2.trace =
        st.trace ++ (pre ++ Event.saveHistory ⟨some (i + 1), sd⟩ :: post) ∧
      (∀ r, (main_model resetFlag images audios entropy today notifyFails ffmpegFails st).1 =
        .ok r → r.day_number = i + 1) ∧
      (∀ e ∈ pre, isDownstream e = false) := by
  rcases hcr : create_reel images audios entropy today notifyFails ffmpegFails
      (if resetFlag then reset_progress st else st) with ⟨res0, st1⟩
  cases res0 with
  | error e =>
      have hmain := main_model_eq_error resetFlag images audios entropy today
        notifyFails ffmpegFails st st1 e hcr
      rw [hmain] at hsel ⊢
      have he : e = .runtimeError "CalledProcessError" := by
        rcases hsel with hL | ⟨r, hr⟩
        · simpa using hL
        · simp at hr
      subst he
      obtain ⟨i, sd, pre0, img, aud, hloadidx, hpre, _, _, htrace⟩ :=
        create_reel_selection_completed hcr (Or.inl rfl)
      refine ⟨i, sd, (if resetFlag then [Event.resetEvent] else []) ++ pre0,
        alertEvents (((images.length ⊓ audios.length : Nat) : Int) - (i + 1)) notifyFails ++
          [Event.ffmpegRun img aud], hloadidx, ?_, ?_, ?_⟩
      · simp only [htrace]
        cases resetFlag with
        | false => simp [List.append_assoc]
        | true => simp [reset_progress, List.append_assoc]
      · intro r hr
        simp at hr
      · intro e he
        rcases List.mem_append.mp he with he1 | he1
        · cases resetFlag with
          | false => simp at he1
          | true =>
              simp only [if_true, List.mem_singleton] at he1
              subst he1
              rfl
        · obtain ⟨hr0, he2, hidx⟩ := hpre e he1
          subst he2
          rfl
  | ok r0 =>
      have hmain := main_model_eq_ok resetFlag images audios entropy today
        notifyFails ffmpegFails st st1 r0 hcr
      rw [hmain] at hsel ⊢
      obtain ⟨i, sd, pre0, img, aud, hloadidx, hpre, hday, _, htrace⟩ :=
        create_reel_selection_completed hcr (Or.inr ⟨r0, rfl⟩)
      refine ⟨i, sd, (if resetFlag then [Event.resetEvent] else []) ++ pre0,
        alertEvents (((images.length ⊓ audios.length : Nat) : Int) - (i + 1)) notifyFails ++
          [Event.ffmpegRun img aud] ++ [Event.uploadR2 r0.output_path, Event.emailSent],
        hloadidx, ?_, ?_, ?_⟩
      · simp only [htrace]
        cases resetFlag with
        | false => simp [List.append_assoc]
        | true => simp [reset_progress, List.append_assoc]
      · intro r hr
        simp only [Except.ok.injEq] at hr
        subst hr
        exact hday r0 rfl
      · intro e he
        rcases List.mem_append.mp he with he1 | he1
        · cases resetFlag with
          | false => simp at he1
          | true =>
              simp only [if_true, List.mem_singleton] at he1
              subst he1
              rfl
        · obtain ⟨hr0, he2, hidx⟩ := hpre e he1
          subst he2
          rfl

/-- C2 witness: a concrete run whose selection succeeds but whose
encode subprocess then fails (`ffmpegFails = true`) — the
previously-possible downstream failure — with the saved increment
still preceding the encode attempt in the trace. -/
theorem c2_witness :
    ((main_model false ["a", "b"] ["x", "y"] 0 "d" false true
        ⟨.valid ⟨some 0, some (some 5)⟩, []⟩).1 =
      .error (.runtimeError "CalledProcessError") ∨
     ∃ r, (main_model false ["a", "b"] ["x", "y"] 0 "d" false true
        ⟨.valid ⟨some 0, some (some 5)⟩, []⟩).1 = .ok r) ∧
    (∃ (i : Int) (sd : Option (Option Int)) (pre post : List Event),
      (load_history (if false then
          reset_progress ⟨.valid ⟨some 0, some (some 5)⟩, []⟩
        else (⟨.valid ⟨some 0, some (some 5)⟩, []⟩ : Effects)).file).index = some i ∧
      (main_model false ["a", "b"] ["x", "y"] 0 "d" false true
          ⟨.valid ⟨some 0, some (some 5)⟩, []⟩).2.trace =
        [] ++ (pre ++ Event.saveHistory ⟨some (i + 1), sd⟩ :: post) ∧
      (∀ r, (main_model false ["a", "b"] ["x", "y"] 0 "d" false true
          ⟨.valid ⟨some 0, some (some 5)⟩, []⟩).1 = .ok r → r.day_number = i + 1) ∧
      (∀ e ∈ pre, isDownstream e = false)) :=
  ⟨Or.inl rfl,
   c2_increment_persisted_before_downstream false ["a", "b"] ["x", "y"] 0 "d" false true
     ⟨.valid ⟨some 0, some (some 5)⟩, []⟩ (Or.inl rfl)⟩

/-- C3 counterexample: an exhausted record whose seed is still JSON
`null`.  The call raises the exhaustion error as claimed, but the
persisted record after the failed call differs from the record
before it (a fresh seed was assigned and saved before the guard
fired), so "does not mutate the progress record" is false as
stated. -/
theorem c3_counterexample :
    (create_reel ["a"] ["a"] 0 "d" false false
        ⟨.valid ⟨some 1, some none⟩, []⟩).1 =
      .error (.runtimeError allFinishedMsg) ∧
    (create_reel ["a"] ["a"] 0 "d" false false
        ⟨.valid ⟨some 1, some none⟩, []⟩).2.file ≠
      PersistedFile.valid ⟨some 1, some none⟩ := by
  constructor
  · rfl
  · decide

/-- C3 (amended): with `index = i ≥ N` on nonempty pools the call
raises the exhaustion error and never touches the persisted `index`;
the persisted record is entirely unchanged whenever `shuffle_seed`
was already an integer, while an unset (`null`) seed is assigned and
persisted before the guard fires. -/
theorem c3_exhausted_error_and_index_preserved (images audios : List String)
    (entropy : Nat) (today : String) (nf ff : Bool) (st : Effects) (i : Int)
    (sf : Option Int)
    (hI : images ≠ []) (hA : audios ≠ [])
    (hload : load_history st.file = ⟨some i, some sf⟩)
    (hex : ((images.length ⊓ audios.length : Nat) : Int) ≤ i) :
    (create_reel images audios entropy today nf ff st).1 =
      .error (.runtimeError allFinishedMsg) ∧
    (load_history (create_reel images audios entropy today nf ff st).2.file).index =
      some i ∧
    (∀ s : Int, sf = some s →
      (create_reel images audios entropy today nf ff st).2 = st) :=
  create_reel_exhausted images audios entropy today nf ff st i sf hI hA hload hex

/-- C3 witness: exhausted call on a record with an integer seed. -/
theorem c3_witness :
    ((["a"] : List String) ≠ [] ∧ (["z"] : List String) ≠ [] ∧
     load_history (PersistedFile.valid ⟨some 2, some (some 9)⟩) =
       ⟨some 2, some (some 9)⟩ ∧
     (((["a"] : List String).length ⊓ (["z"] : List String).length : Nat) : Int) ≤ 2) ∧
    ((create_reel ["a"] ["z"] 0 "d" false false
        ⟨.valid ⟨some 2, some (some 9)⟩, []⟩).1 =
      .error (.runtimeError allFinishedMsg) ∧
     (load_history (create_reel ["a"] ["z"] 0 "d" false false
        ⟨.valid ⟨some 2, some (some 9)⟩, []⟩).2.file).index = some 2 ∧
     (∀ s : Int, (some (9 : Int) : Option Int) = some s →
       (create_reel ["a"] ["z"] 0 "d" false false
         ⟨.valid ⟨some 2, some (some 9)⟩, []⟩).2 =
         ⟨.valid ⟨some 2, some (some 9)⟩, []⟩)) :=
  ⟨⟨by decide, by decide, rfl, by decide⟩,
   c3_exhausted_error_and_index_preserved ["a"] ["z"] 0 "d" false false
     ⟨.valid ⟨some 2, some (some 9)⟩, []⟩ 2 (some 9) (by decide) (by decide) rfl (by decide)⟩

/-- C4: with an empty image or audio listing, `create_reel` raises
the missing-material `RuntimeError` and performs no modelled side
effect at all: the history file and the trace are exactly as before
the call, whatever the progress record holds. -/
theorem c4_empty_pool_error_before_side_effects (images audios : List String)
    (entropy : Nat) (today : String) (nf ff : Bool) (st : Effects)
    (h : images = [] ∨ audios = []) :
    create_reel images audios entropy today nf ff st =
      (.error (.runtimeError missingMsg), st) := by
  rcases h with h | h
  · subst h
    rfl
  · subst h
    simp [create_reel]

/-- C4 witness: empty audio listing. -/
theorem c4_witness :
    ((["a"] : List String) = [] ∨ ([] : List String) = []) ∧
    create_reel ["a"] [] 0 "d" false false ⟨.valid ⟨some 3, some (some 4)⟩, []⟩ =
      (.error (.runtimeError missingMsg), ⟨.valid ⟨some 3, some (some 4)⟩, []⟩) :=
  ⟨Or.inr rfl,
   c4_empty_pool_error_before_side_effects ["a"] [] 0 "d" false false
     ⟨.valid ⟨some 3, some (some 4)⟩, []⟩ (Or.inr rfl)⟩

/-- C5 counterexample: a successful first-run selection (record
`{index: 0, shuffle_seed: null}`).  The selection succeeds, but the
record observable via a subsequent load does not carry "the same
shuffle_seed as before the call": the seed changed from `null` to a
freshly assigned integer.  So the claim fails as stated for records
whose seed was unset. -/
theorem c5_counterexample :
    (∃ r, (create_reel ["a", "b"] ["x", "y"] 0 "d" false false
        ⟨.valid ⟨some 0, some none⟩, []⟩).1 = Except.ok r) ∧
    (load_history (create_reel ["a", "b"] ["x", "y"] 0 "d" false false
        ⟨.valid ⟨some 0, some none⟩, []⟩).2.file).shuffle_seed ≠
      (load_history (PersistedFile.valid ⟨some 0, some none⟩)).shuffle_seed :=
  ⟨⟨_, rfl⟩, by decide⟩

/-- C5 (amended): for a successful selection from a record with
`index = i` (`0 ≤ i < N`) whose seed is already an integer `s`, the
returned `day_number` is `i + 1` and a subsequent load observes
`index = i + 1` with the seed unchanged; when the seed was unset it
is the freshly assigned seed instead (see the C6 theorem). -/
theorem c5_day_number_and_persisted_increment (images audios : List String)
    (entropy : Nat) (today : String) (nf : Bool) (s i : Int) (tr : List Event)
    (hI : images ≠ []) (hA : audios ≠ [])
    (h0 : 0 ≤ i) (hiN : i < (images.length : Int) ⊓ (audios.length : Int)) :
    ∃ r, (create_reel images audios entropy today nf false
        ⟨.valid ⟨some i, some (some s)⟩, tr⟩).1 = .ok r ∧
      r.day_number = i + 1 ∧
      load_history (create_reel images audios entropy today nf false
        ⟨.valid ⟨some i, some (some s)⟩, tr⟩).2.file = ⟨some (i + 1), some (some s)⟩ := by
  have hiN' : i.toNat < images.length ⊓ audios.length := by
    have : (images.length : Int) ⊓ (audios.length : Int) =
        ((images.length ⊓ audios.length : Nat) : Int) := by push_cast; rfl
    omega
  have hlen : i.toNat < (pyShuffle s (List.range (images.length ⊓ audios.length))).length := by
    rw [pyShuffle_length]
    simpa using hiN'
  have hp : pyGet (pyShuffle s (List.range (images.length ⊓ audios.length))) i =
      .ok ((pyShuffle s (List.range (images.length ⊓ audios.length))).get ⟨i.toNat, hlen⟩) :=
    pyGet_ok_of_nonneg _ i h0 (by simpa using hlen)
  rw [create_reel_success images audios entropy today nf s i _ tr hI hA hiN hp]
  exact ⟨_, rfl, rfl, rfl⟩

/-- C5 witness: seeded record, `i = 1`, `N = 3`. -/
theorem c5_witness :
    ((["a", "b", "c"] : List String) ≠ [] ∧ (["x", "y", "z"] : List String) ≠ [] ∧
     (0 : Int) ≤ 1 ∧
     (1 : Int) < ((["a", "b", "c"] : List String).length : Int) ⊓
       ((["x", "y", "z"] : List String).length : Int)) ∧
    (∃ r, (create_reel ["a", "b", "c"] ["x", "y", "z"] 0 "d" false false
        ⟨.valid ⟨some 1, some (some 11)⟩, []⟩).1 = .ok r ∧
      r.day_number = 1 + 1 ∧
      load_history (create_reel ["a", "b", "c"] ["x", "y", "z"] 0 "d" false false
        ⟨.valid ⟨some 1, some (some 11)⟩, []⟩).2.file = ⟨some (1 + 1), some (some 11)⟩) :=
  ⟨⟨by decide, by decide, by decide, by decide⟩,
   c5_day_number_and_persisted_increment ["a", "b", "c"] ["x", "y", "z"] 0 "d" false 11 1 []
     (by decide) (by decide) (by decide) (by decide)⟩

/-- C6: a selection on a record whose seed is unset (`null`) draws
`randint(1, 999999)` — a value in `[1, 999999]` — and persists it as
the very first side effect of the call (in particular before the
incremented-index save or any external effect), the persisted record
still carries it when the call ends; and once a record carries an
integer seed, every selection — and every reset-free run — leaves
that seed in the persisted record, whatever its outcome. -/
theorem c6_seed_assigned_in_range_persisted_and_stable (images audios : List String)
    (entropy : Nat) (today : String) (nf ff : Bool) (st : Effects)
    (hI : images ≠ []) (hA : audios ≠ [])
    (hseed : (load_history st.file).shuffle_seed = some none) :
    (1 ≤ randint 1 999999 entropy ∧ randint 1 999999 entropy ≤ 999999) ∧
    (∃ rest, (create_reel images audios entropy today nf ff st).2.trace =
        st.trace ++ Event.saveHistory
          ⟨(load_history st.file).index, some (some (randint 1 999999 entropy))⟩ :: rest) ∧
    (load_history (create_reel images audios entropy today nf ff st).2.file).shuffle_seed =
      some (some (randint 1 999999 entropy)) ∧
    (∀ (images2 audios2 : List String) (entropy2 : Nat) (today2 : String)
        (nf2 ff2 : Bool) (st2 : Effects) (s : Int),
      (load_history st2.file).shuffle_seed = some (some s) →
      (load_history
          (create_reel images2 audios2 entropy2 today2 nf2 ff2 st2).2.file).shuffle_seed =
        some (some s) ∧
      (load_history
          (main_model false images2 audios2 entropy2 today2 nf2 ff2 st2).2.file).shuffle_seed =
        some (some s)) := by
  obtain ⟨rest, htr, hfile⟩ := create_reel_seed_assign images audios entropy today nf ff st
    hI hA hseed
  refine ⟨⟨randint_low entropy, randint_high entropy⟩, ⟨rest, htr⟩, hfile, ?_⟩
  intro images2 audios2 entropy2 today2 nf2 ff2 st2 s hs
  refine ⟨create_reel_seed_preserved images2 audios2 entropy2 today2 nf2 ff2 st2 s hs, ?_⟩
  rw [main_model_file]
  exact create_reel_seed_preserved images2 audios2 entropy2 today2 nf2 ff2 st2 s hs

/-- C6 witness: first run on the default (null-seed) record. -/
theorem c6_witness :
    ((["a"] : List String) ≠ [] ∧ (["z"] : List String) ≠ [] ∧
     (load_history (PersistedFile.valid ⟨some 0, some none⟩)).shuffle_seed = some none) ∧
    ((1 ≤ randint 1 999999 17 ∧ randint 1 999999 17 ≤ 999999) ∧
     (∃ rest, (create_reel ["a"] ["z"] 17 "d" false false
         ⟨.valid ⟨some 0, some none⟩, []⟩).2.trace =
       [] ++ Event.saveHistory
         ⟨(load_history (PersistedFile.valid ⟨some 0, some none⟩)).index,
          some (some (randint 1 999999 17))⟩ :: rest) ∧
     (load_history (create_reel ["a"] ["z"] 17 "d" false false
         ⟨.valid ⟨some 0, some none⟩, []⟩).2.file).shuffle_seed =
       some (some (randint 1 999999 17)) ∧
     (∀ (images2 audios2 : List String) (entropy2 : Nat) (today2 : String)
         (nf2 ff2 : Bool) (st2 : Effects) (s : Int),
       (load_history st2.file).shuffle_seed = some (some s) →
       (load_history
           (create_reel images2 audios2 entropy2 today2 nf2 ff2 st2).2.file).shuffle_seed =
         some (some s) ∧
       (load_history
           (main_model false images2 audios2 entropy2 today2 nf2 ff2 st2).2.file).shuffle_seed =
         some (some s))) :=
  ⟨⟨by decide, by decide, rfl⟩,
   c6_seed_assigned_in_range_persisted_and_stable ["a"] ["z"] 17 "d" false false
     ⟨.valid ⟨some 0, some none⟩, []⟩ (by decide) (by decide) rfl⟩

/-- C7: `load_history` returns the default record
`{index: 0, shuffle_seed: None}` both when no persisted state exists
and when the persisted state is unreadable/corrupt; being a total
function into `Stored`, it propagates no error in those cases. -/
theorem c7_load_recovers_default_on_missing_or_corrupt :
    load_history .absent = defaultHistory ∧
    load_history .corrupt = defaultHistory ∧
    defaultHistory = ⟨some 0, some none⟩ :=
  ⟨rfl, rfl, rfl⟩

/-- C8: after a successful selection with
`remaining = N - (i + 1) ≤ LOW_STOCK_THRESHOLD`, the low-stock
notification is attempted (its event is in the trace), and this
holds for either behaviour of the notifier (`notifyFails`
arbitrary): a throwing notifier is swallowed, the call still
returns the selection and the persisted advance to `i + 1` stands. -/
theorem c8_low_stock_triggered_and_notifier_failure_swallowed
    (images audios : List String) (entropy : Nat) (today : String)
    (notifyFails : Bool) (s i : Int) (tr : List Event)
    (hI : images ≠ []) (hA : audios ≠ [])
    (h0 : 0 ≤ i) (hiN : i < (images.length : Int) ⊓ (audios.length : Int))
    (hlow : (images.length : Int) ⊓ (audios.length : Int) - (i + 1) ≤ LOW_STOCK_THRESHOLD) :
    (∃ r, (create_reel images audios entropy today notifyFails false
        ⟨.valid ⟨some i, some (some s)⟩, tr⟩).1 = .ok r) ∧
    Event.lowStockAlert ((images.length : Int) ⊓ (audios.length : Int) - (i + 1)) ∈
      (create_reel images audios entropy today notifyFails false
        ⟨.valid ⟨some i, some (some s)⟩, tr⟩).2.trace ∧
    load_history (create_reel images audios entropy today notifyFails false
        ⟨.valid ⟨some i, some (some s)⟩, tr⟩).2.file = ⟨some (i + 1), some (some s)⟩ := by
  have hiN' : i.toNat < images.length ⊓ audios.length := by
    have : (images.length : Int) ⊓ (audios.length : Int) =
        ((images.length ⊓ audios.length : Nat) : Int) := by push_cast; rfl
    omega
  have hlen : i.toNat < (pyShuffle s (List.range (images.length ⊓ audios.length))).length := by
    rw [pyShuffle_length]
    simpa using hiN'
  have hp : pyGet (pyShuffle s (List.range (images.length ⊓ audios.length))) i =
      .ok ((pyShuffle s (List.range (images.length ⊓ audios.length))).get ⟨i.toNat, hlen⟩) :=
    pyGet_ok_of_nonneg _ i h0 (by simpa using hlen)
  rw [create_reel_success images audios entropy today notifyFails s i _ tr hI hA hiN hp]
  refine ⟨⟨_, rfl⟩, ?_, rfl⟩
  have hcast : ((images.length ⊓ audios.length : Nat) : Int) =
      (images.length : Int) ⊓ (audios.length : Int) := by push_cast; rfl
  simp only [alertEvents, hcast, if_pos hlow]
  simp

/-- C8 witness: `N = 3`, `i = 0`, `remaining = 2 ≤ 3`, notifier
throwing. -/
theorem c8_witness :
    ((["a", "b", "c"] : List String) ≠ [] ∧ (["x", "y", "z"] : List String) ≠ [] ∧
     (0 : Int) ≤ 0 ∧
     (0 : Int) < ((["a", "b", "c"] : List String).length : Int) ⊓
       ((["x", "y", "z"] : List String).length : Int) ∧
     ((["a", "b", "c"] : List String).length : Int) ⊓
       ((["x", "y", "z"] : List String).length : Int) - (0 + 1) ≤ LOW_STOCK_THRESHOLD) ∧
    ((∃ r, (create_reel ["a", "b", "c"] ["x", "y", "z"] 0 "d" true false
        ⟨.valid ⟨some 0, some (some 11)⟩, []⟩).1 = .ok r) ∧
     Event.lowStockAlert (((["a", "b", "c"] : List String).length : Int) ⊓
         ((["x", "y", "z"] : List String).length : Int) - (0 + 1)) ∈
       (create_reel ["a", "b", "c"] ["x", "y", "z"] 0 "d" true false
         ⟨.valid ⟨some 0, some (some 11)⟩, []⟩).2.trace ∧
     load_history (create_reel ["a", "b", "c"] ["x", "y", "z"] 0 "d" true false
         ⟨.valid ⟨some 0, some (some 11)⟩, []⟩).2.file = ⟨some (0 + 1), some (some 11)⟩) :=
  ⟨⟨by decide, by decide, by decide, by decide, by decide⟩,
   c8_low_stock_triggered_and_notifier_failure_swallowed ["a", "b", "c"] ["x", "y", "z"]
     0 "d" true 11 0 [] (by decide) (by decide) (by decide) (by decide) (by decide)⟩

/-- C9: loader recovery covers only decode failures.  A
decodable record missing the `"index"` or `"shuffle_seed"` key is
returned by `load_history` unchanged (not replaced by the default),
and the subsequent selection on nonempty pools fails with a
`KeyError` that propagates to the caller. -/
theorem c9_incomplete_record_returned_and_keyerror_propagates (s : Stored)
    (hmiss : s.index = none ∨ s.shuffle_seed = none) :
    load_history (.valid s) = s ∧
    (∀ (images audios : List String) (entropy : Nat) (today : String)
        (nf ff : Bool) (tr : List Event),
      images ≠ [] → audios ≠ [] →
      ∃ key, (create_reel images audios entropy today nf ff ⟨.valid s, tr⟩).1 =
        .error (.keyError key)) := by
  refine ⟨rfl, ?_⟩
  intro images audios entropy today nf ff tr hI hA
  have hIe : images.isEmpty = false := by
    cases images with
    | nil => exact absurd rfl hI
    | cons a t => rfl
  have hAe : audios.isEmpty = false := by
    cases audios with
    | nil => exact absurd rfl hA
    | cons a t => rfl
  rcases hs : s.shuffle_seed with _ | sf
  · refine ⟨"shuffle_seed", ?_⟩
    simp only [create_reel, load_history, hIe, hAe, Bool.or_self, Bool.false_eq_true,
      if_false, hs]
  · have hidx : s.index = none := by
      rcases hmiss with h | h
      · exact h
      · rw [hs] at h
        cases h
    rcases sf with _ | σ
    · refine ⟨"index", ?_⟩
      simp only [create_reel, load_history, hIe, hAe, Bool.or_self, Bool.false_eq_true,
        if_false, hs, afterSeed, hidx]
    · refine ⟨"index", ?_⟩
      simp only [create_reel, load_history, hIe, hAe, Bool.or_self, Bool.false_eq_true,
        if_false, hs, afterSeed, hidx]

/-- C9 witness: the record decoded from `"{}"` (both keys absent). -/
theorem c9_witness :
    (((⟨none, none⟩ : Stored).index = none ∨
      (⟨none, none⟩ : Stored).shuffle_seed = none) ∧
     (["a"] : List String) ≠ [] ∧ (["z"] : List String) ≠ []) ∧
    (load_history (.valid ⟨none, none⟩) = (⟨none, none⟩ : Stored) ∧
     ∃ key, (create_reel ["a"] ["z"] 0 "d" false false
        ⟨.valid ⟨none, none⟩, []⟩).1 = .error (.keyError key)) :=
  ⟨⟨Or.inl rfl, by decide, by decide⟩,
   ⟨(c9_incomplete_record_returned_and_keyerror_propagates ⟨none, none⟩ (Or.inl rfl)).1,
    (c9_incomplete_record_returned_and_keyerror_propagates ⟨none, none⟩ (Or.inl rfl)).2
      ["a"] ["z"] 0 "d" false false [] (by decide) (by decide)⟩⟩

/-- C10: on a seeded record over nonempty pools, a persisted index
in `[-N, N)` never raises an out-of-bounds error — for `0 ≤ i < N`
every access is in bounds, and for `-N ≤ i < 0` the exhaustion guard
does not fire and the accesses resolve by Python negative indexing,
the call succeeding; `IndexError` is raised exactly when
`index < -N`. -/
theorem c10_subscripts_in_bounds_and_negative_indexing (images audios : List String)
    (entropy : Nat) (today : String) (s i : Int) (tr : List Event)
    (hI : images ≠ []) (hA : audios ≠ []) :
    (-((images.length ⊓ audios.length : Nat) : Int) ≤ i →
      i < ((images.length ⊓ audios.length : Nat) : Int) →
      ∃ r, (create_reel images audios entropy today false false
        ⟨.valid ⟨some i, some (some s)⟩, tr⟩).1 = .ok r) ∧
    ((create_reel images audios entropy today false false
        ⟨.valid ⟨some i, some (some s)⟩, tr⟩).1 = .error .indexError ↔
      i < -((images.length ⊓ audios.length : Nat) : Int)) := by
  have hcast : ((images.length ⊓ audios.length : Nat) : Int) =
      (images.length : Int) ⊓ (audios.length : Int) := by push_cast; rfl
  have hlen : (pyShuffle s (List.range (images.length ⊓ audios.length))).length =
      images.length ⊓ audios.length := by
    rw [pyShuffle_length, List.length_range]
  have hok : -((images.length ⊓ audios.length : Nat) : Int) ≤ i →
      i < ((images.length ⊓ audios.length : Nat) : Int) →
      ∃ r, (create_reel images audios entropy today false false
        ⟨.valid ⟨some i, some (some s)⟩, tr⟩).1 = .ok r := by
    intro hge hlt
    rcases le_or_lt 0 i with h0 | h0
    · have hbound : i.toNat < (pyShuffle s (List.range (images.length ⊓ audios.length))).length := by
        rw [hlen]
        omega
      have hp : pyGet (pyShuffle s (List.range (images.length ⊓ audios.length))) i =
          .ok ((pyShuffle s (List.range (images.length ⊓ audios.length))).get
            ⟨i.toNat, hbound⟩) :=
        pyGet_ok_of_nonneg _ i h0 (by simpa using hbound)
      rw [create_reel_success images audios entropy today false s i _ tr hI hA
        (by rw [← hcast]; exact hlt) hp]
      exact ⟨_, rfl⟩
    · have hbound : (i + (pyShuffle s
          (List.range (images.length ⊓ audios.length))).length).toNat <
          (pyShuffle s (List.range (images.length ⊓ audios.length))).length := by
        rw [hlen]
        omega
      have hp : pyGet (pyShuffle s (List.range (images.length ⊓ audios.length))) i =
          .ok ((pyShuffle s (List.range (images.length ⊓ audios.length))).get
            ⟨(i + (pyShuffle s (List.range (images.length ⊓ audios.length))).length).toNat,
             hbound⟩) :=
        pyGet_ok_of_neg _ i (by rw [hlen]; omega) h0 hbound
      rw [create_reel_success images audios entropy today false s i _ tr hI hA
        (by rw [← hcast]; exact hlt) hp]
      exact ⟨_, rfl⟩
  refine ⟨hok, ?_, ?_⟩
  · intro herr
    by_contra hcon
    push_neg at hcon
    rcases le_or_lt ((images.length ⊓ audios.length : Nat) : Int) i with hge | hlt
    · have hex := create_reel_exhausted images audios entropy today false false
        ⟨.valid ⟨some i, some (some s)⟩, tr⟩ i (some s) hI hA rfl hge
      rw [hex.1] at herr
      simp at herr
    · obtain ⟨r, hr⟩ := hok hcon hlt
      rw [hr] at herr
      simp at herr
  · intro hlow
    rw [create_reel_idxerr images audios entropy today false false s i tr hI hA hlow]

/-- C10 witness: `N = 3`, negative in-range index `-2` (succeeds)
and the `IndexError` characterisation at that input. -/
theorem c10_witness :
    ((["a", "b", "c"] : List String) ≠ [] ∧ (["x", "y", "z"] : List String) ≠ []) ∧
    ((-(((["a", "b", "c"] : List String).length ⊓
          (["x", "y", "z"] : List String).length : Nat) : Int) ≤ -2 →
      (-2 : Int) < (((["a", "b", "c"] : List String).length ⊓
          (["x", "y", "z"] : List String).length : Nat) : Int) →
      ∃ r, (create_reel ["a", "b", "c"] ["x", "y", "z"] 0 "d" false false
        ⟨.valid ⟨some (-2), some (some 5)⟩, []⟩).1 = .ok r) ∧
     ((create_reel ["a", "b", "c"] ["x", "y", "z"] 0 "d" false false
        ⟨.valid ⟨some (-2), some (some 5)⟩, []⟩).1 = .error .indexError ↔
      (-2 : Int) < -(((["a", "b", "c"] : List String).length ⊓
          (["x", "y", "z"] : List String).length : Nat) : Int))) :=
  ⟨⟨by decide, by decide⟩,
   c10_subscripts_in_bounds_and_negative_indexing ["a", "b", "c"] ["x", "y", "z"]
     0 "d" 5 (-2) [] (by decide) (by decide)⟩

end DailyInsightTimer
